import Mathlib

/-!
Verification of the Tab Manager subsystem
(`packages/interface/src/components/TabManager/useTabManager.ts`).

The TypeScript source is shallowly embedded: pure functions become Lean
functions, the stateful provider becomes explicit state passing over a
`TMState` record, JavaScript `Map`s become association lists with JS `Map`
semantics (insertion order preserved, `set` replaces in place), and listener
notification is modelled by returning the list of (listener, tabId) calls a
store mutation emits.
-/

set_option maxHeartbeats 1000000

-- ============================================================================
-- Data model (useTabManager.ts lines 83-134)
-- ============================================================================

/-- View mode enum (`type ViewMode`, line 83). -/
inductive ViewMode where
  | grid | list | column | media | size
deriving DecidableEq, Repr

/-- Sort key enum (`type SortBy`, lines 84-89). -/
inductive SortBy where
  | name | size | date_modified | date_created | kind
deriving DecidableEq, Repr

/-- Tab metadata (`interface Tab`, lines 91-98). `lastActive` is a
`Date.now()` millisecond timestamp, modelled as `Nat`. -/
structure Tab where
  id : String
  title : String
  icon : Option String
  isPinned : Bool
  lastActive : Nat
  savedPath : String
deriving DecidableEq, Repr

/-- Size-view pan/zoom transform (`sizeViewTransform` field, line 120).
JS numbers are modelled as `Int`; no arithmetic is performed on them. -/
structure SizeViewTransform where
  k : Int
  x : Int
  y : Int
deriving DecidableEq, Repr

/-- Per-tab explorer view state (`interface TabExplorerState`, lines 104-121). -/
structure TabExplorerState where
  viewMode : ViewMode
  sortBy : SortBy
  gridSize : Int
  gapSize : Int
  foldersFirst : Bool
  columnStack : List String
  scrollTop : Int
  scrollLeft : Int
  sizeViewTransform : SizeViewTransform
deriving DecidableEq, Repr

/-- Default explorer state (`DEFAULT_EXPLORER_STATE`, lines 124-134). -/
def DEFAULT_EXPLORER_STATE : TabExplorerState :=
  { viewMode := ViewMode.grid
    sortBy := SortBy.name
    gridSize := 120
    gapSize := 16
    foldersFirst := true
    columnStack := []
    scrollTop := 0
    scrollLeft := 0
    sizeViewTransform := { k := 1, x := 0, y := 0 } }

/-- A `Partial<TabExplorerState>` update object: each field is either present
(`some`) or absent (`none`). -/
structure TabExplorerStateUpdate where
  viewMode : Option ViewMode := none
  sortBy : Option SortBy := none
  gridSize : Option Int := none
  gapSize : Option Int := none
  foldersFirst : Option Bool := none
  columnStack : Option (List String) := none
  scrollTop : Option Int := none
  scrollLeft : Option Int := none
  sizeViewTransform : Option SizeViewTransform := none
deriving DecidableEq, Repr

/-- JS object spread `{...current, ...updates}` on `TabExplorerState`: every
field present in `updates` overrides the one in `current`. -/
def applyUpdate (current : TabExplorerState) (u : TabExplorerStateUpdate) :
    TabExplorerState :=
  { viewMode := u.viewMode.getD current.viewMode
    sortBy := u.sortBy.getD current.sortBy
    gridSize := u.gridSize.getD current.gridSize
    gapSize := u.gapSize.getD current.gapSize
    foldersFirst := u.foldersFirst.getD current.foldersFirst
    columnStack := u.columnStack.getD current.columnStack
    scrollTop := u.scrollTop.getD current.scrollTop
    scrollLeft := u.scrollLeft.getD current.scrollLeft
    sizeViewTransform := u.sizeViewTransform.getD current.sizeViewTransform }

-- ============================================================================
-- JS Map modelled as an association list
-- ============================================================================

/-- `Map.get`: value of the first (unique) entry with the given key. -/
def mapGet {α : Type} (m : List (String × α)) (k : String) : Option α :=
  (m.find? (fun p => p.1 == k)).map (fun p => p.2)

/-- `Map.set`: replace the (unique) entry in place when the key exists, else
append (JS `Map` preserves insertion order; keys are unique, so replacing the
first match is replacing the match). -/
def mapSet {α : Type} : List (String × α) → String → α → List (String × α)
  | [], k, v => [(k, v)]
  | (k', v') :: tl, k, v =>
    if k' == k then (k, v) :: tl else (k', v') :: mapSet tl k v

/-- `Map.delete`: remove the (unique) entry with the given key (no-op when
absent). -/
def mapDelete {α : Type} : List (String × α) → String → List (String × α)
  | [], _ => []
  | (k', v') :: tl, k =>
    if k' == k then tl else (k', v') :: mapDelete tl k

-- ============================================================================
-- External Explorer State Store (lines 183-228)
-- ============================================================================

/-- A registered listener, identified abstractly (JS holds function
references in a `Set`; distinct registrations are distinct identities). -/
abbrev ListenerId := Nat

/-- The `ExplorerStateStore` class (lines 185-226): a keyed table of per-tab
state plus the set of registered listeners. -/
structure ExplorerStateStore where
  states : List (String × TabExplorerState)
  listeners : List ListenerId
deriving DecidableEq, Repr

/-- `notifyListeners` (lines 223-225): `this.listeners.forEach((l) => l(tabId))`
— every registered listener is called once, receiving the tab id unfiltered.
The emitted calls are returned as a list of (listener, argument) pairs. -/
def notifyCalls (listeners : List ListenerId) (tabId : String) :
    List (ListenerId × String) :=
  listeners.map (fun l => (l, tabId))

/-- `getState` (lines 189-191): stored state or a copy of the default. -/
def ExplorerStateStore.getState (s : ExplorerStateStore) (tabId : String) :
    TabExplorerState :=
  (mapGet s.states tabId).getD DEFAULT_EXPLORER_STATE

/-- `setState` (lines 193-196): wholesale replace, then notify. Returns the
new store and the emitted listener calls. -/
def ExplorerStateStore.setState (s : ExplorerStateStore) (tabId : String)
    (st : TabExplorerState) : ExplorerStateStore × List (ListenerId × String) :=
  ({ s with states := mapSet s.states tabId st },
    notifyCalls s.listeners tabId)

/-- `updateState` (lines 198-202): merge onto current-or-default, notify. -/
def ExplorerStateStore.updateState (s : ExplorerStateStore) (tabId : String)
    (u : TabExplorerStateUpdate) :
    ExplorerStateStore × List (ListenerId × String) :=
  let current := (mapGet s.states tabId).getD DEFAULT_EXPLORER_STATE
  ({ s with states := mapSet s.states tabId (applyUpdate current u) },
    notifyCalls s.listeners tabId)

/-- `deleteState` (lines 204-207): remove the entry, notify. -/
def ExplorerStateStore.deleteState (s : ExplorerStateStore) (tabId : String) :
    ExplorerStateStore × List (ListenerId × String) :=
  ({ s with states := mapDelete s.states tabId },
    notifyCalls s.listeners tabId)

/-- `loadFromRecord` (lines 213-216): replace the whole table and notify every
listener with the broadcast sentinel `""`. -/
def ExplorerStateStore.loadFromRecord (s : ExplorerStateStore)
    (record : List (String × TabExplorerState)) :
    ExplorerStateStore × List (ListenerId × String) :=
  ({ s with states := record }, notifyCalls s.listeners (""))

/-- `subscribe` (lines 218-221): add to the listener `Set` (a JS `Set` ignores
a duplicate addition). -/
def ExplorerStateStore.subscribe (s : ExplorerStateStore) (l : ListenerId) :
    ExplorerStateStore :=
  if l ∈ s.listeners then s else { s with listeners := s.listeners ++ [l] }

/-- The filter inside `useTabExplorerState`'s subscription callback
(lines 588-593): the bound consumer re-reads exactly when the changed id is
the broadcast sentinel `""` or its own tab id. -/
def tabSubscriberFires (boundTabId changedTabId : String) : Bool :=
  changedTabId == "" || changedTabId == boundTabId

-- ============================================================================
-- Platform primitives used by `deriveTitleFromPath`: percent-coding,
-- URLSearchParams, JSON. Inputs in this subsystem are ASCII, so multibyte
-- UTF-8 percent-sequences are not modelled.
-- ============================================================================

/-- Value of a hexadecimal digit character. -/
def hexVal (c : Char) : Option Nat :=
  if '0' ≤ c ∧ c ≤ '9' then some (c.toNat - 48)
  else if 'A' ≤ c ∧ c ≤ 'F' then some (c.toNat - 55)
  else if 'a' ≤ c ∧ c ≤ 'f' then some (c.toNat - 87)
  else none

/-- Uppercase hexadecimal digit for a value below 16. -/
def hexDigitUpper (n : Nat) : Char :=
  if n < 10 then Char.ofNat (48 + n) else Char.ofNat (55 + n)

/-- Strict percent-decoding: a `%` not followed by two hex digits throws a
`URIError` in JS, modelled as `none`. -/
def percentDecodeStrictAux : List Char → Option (List Char)
  | [] => some []
  | c :: rest =>
    if c = '%' then
      match rest with
      | h :: l :: rest' =>
        match hexVal h, hexVal l with
        | some hi, some lo =>
          (percentDecodeStrictAux rest').map
            (fun t => Char.ofNat (hi * 16 + lo) :: t)
        | _, _ => none
      | _ => none
    else (percentDecodeStrictAux rest).map (fun t => c :: t)

/-- Model of the JS global `decodeURIComponent`; `none` models a thrown
`URIError`. -/
def decodeURIComponent (s : String) : Option String :=
  (percentDecodeStrictAux s.toList).map String.mk

/-- Lenient percent-decoding as used by `URLSearchParams`: a malformed
percent-sequence is kept literally, nothing throws. -/
def percentDecodeLenientAux : List Char → List Char
  | [] => []
  | c :: rest =>
    if c = '%' then
      match rest with
      | h :: l :: rest' =>
        match hexVal h, hexVal l with
        | some hi, some lo => Char.ofNat (hi * 16 + lo) :: percentDecodeLenientAux rest'
        | _, _ => c :: percentDecodeLenientAux (h :: l :: rest')
      | short => c :: percentDecodeLenientAux short
    else c :: percentDecodeLenientAux rest

/-- Decoding of one `application/x-www-form-urlencoded` token: `+` becomes a
space, then percent-sequences are decoded leniently. -/
def formDecode (cs : List Char) : List Char :=
  percentDecodeLenientAux (cs.map (fun c => if c = '+' then ' ' else c))

/-- Splitting a character list at every occurrence of a separator, with the
semantics of JS `String.split` on a one-character separator. -/
def splitChar (sep : Char) : List Char → List (List Char)
  | [] => [[]]
  | c :: rest =>
    let r := splitChar sep rest
    if c = sep then [] :: r
    else
      match r with
      | h :: t => (c :: h) :: t
      | [] => [[c]]

/-- JS `s.split(sep)` for a one-character separator. -/
def stringSplitChar (sep : Char) (s : String) : List String :=
  (splitChar sep s.toList).map String.mk

/-- Model of `new URLSearchParams(search).get(key)` (lines 53-60): strip a
leading `?`, split on `&`, split each nonempty piece at its first `=`,
form-decode keys and values, return the first value whose key matches. -/
def searchParamsGet (search : String) (key : String) : Option String :=
  let cs := search.toList
  let cs := match cs with
    | '?' :: rest => rest
    | other => other
  let pieces := (splitChar '&' cs).filter (fun p => !p.isEmpty)
  let pairs := pieces.map (fun p =>
    (formDecode (p.takeWhile (fun c => c ≠ '=')),
     formDecode ((p.dropWhile (fun c => c ≠ '=')).drop 1)))
  (pairs.find? (fun pr => pr.1 == key.toList)).map (fun pr => String.mk pr.2)

/-- JSON values, as produced by `JSON.parse`. Numbers are restricted to
integers: no number appears in this subsystem's title derivation inputs. -/
inductive Json where
  | null
  | bool (b : Bool)
  | num (n : Int)
  | str (s : String)
  | arr (elems : List Json)
  | obj (entries : List (String × Json))
deriving Repr

/-- JSON whitespace skipping. -/
def skipWs (cs : List Char) : List Char :=
  cs.dropWhile (fun c => c = ' ' || c = '\t' || c = '\n' || c = '\r')

/-- Body of a JSON string after the opening quote: returns the decoded
characters and the remainder after the closing quote. -/
def parseStringChars : Nat → List Char → Option (List Char × List Char)
  | 0, _ => none
  | _, [] => none
  | fuel+1, c :: rest =>
    if c = '"' then some ([], rest)
    else if c = '\\' then
      match rest with
      | [] => none
      | e :: rest' =>
        let dec : Option (Char × List Char) :=
          if e = '"' then some ('"', rest')
          else if e = '\\' then some ('\\', rest')
          else if e = '/' then some ('/', rest')
          else if e = 'b' then some (Char.ofNat 8, rest')
          else if e = 'f' then some (Char.ofNat 12, rest')
          else if e = 'n' then some ('\n', rest')
          else if e = 'r' then some ('\r', rest')
          else if e = 't' then some ('\t', rest')
          else if e = 'u' then
            match rest' with
            | a :: b :: c2 :: d :: rest'' =>
              match hexVal a, hexVal b, hexVal c2, hexVal d with
              | some va, some vb, some vc, some vd =>
                some (Char.ofNat (va * 4096 + vb * 256 + vc * 16 + vd), rest'')
              | _, _, _, _ => none
            | _ => none
          else none
        match dec with
        | some (ch, r2) =>
          (parseStringChars fuel r2).map (fun pr => (ch :: pr.1, pr.2))
        | none => none
    else (parseStringChars fuel rest).map (fun pr => (c :: pr.1, pr.2))

/-- Digits of a JSON integer. -/
def parseDigits : List Char → Option (Nat × List Char)
  | cs =>
    let digits := cs.takeWhile (fun c => '0' ≤ c ∧ c ≤ '9')
    let rest := cs.dropWhile (fun c => '0' ≤ c ∧ c ≤ '9')
    if digits.isEmpty then none
    else some (digits.foldl (fun acc c => acc * 10 + (c.toNat - 48)) 0, rest)

mutual

/-- Recursive-descent JSON value parser over explicit fuel (fuel bounds the
recursion depth; it is always instantiated generously). -/
def parseValue : Nat → List Char → Option (Json × List Char)
  | 0, _ => none
  | fuel+1, cs =>
    match skipWs cs with
    | [] => none
    | c :: rest =>
      if c = '"' then
        (parseStringChars fuel rest).map
          (fun pr => (Json.str (String.mk pr.1), pr.2))
      else if c = '[' then
        match skipWs rest with
        | ']' :: r2 => some (Json.arr [], r2)
        | _ => (parseElems fuel rest).map (fun pr => (Json.arr pr.1, pr.2))
      else if c = '\x7b' then
        match skipWs rest with
        | '\x7d' :: r2 => some (Json.obj [], r2)
        | _ => (parseMembers fuel rest).map (fun pr => (Json.obj pr.1, pr.2))
      else if c = 't' then
        match rest with
        | 'r' :: 'u' :: 'e' :: r2 => some (Json.bool true, r2)
        | _ => none
      else if c = 'f' then
        match rest with
        | 'a' :: 'l' :: 's' :: 'e' :: r2 => some (Json.bool false, r2)
        | _ => none
      else if c = 'n' then
        match rest with
        | 'u' :: 'l' :: 'l' :: r2 => some (Json.null, r2)
        | _ => none
      else if c = '-' then
        (parseDigits rest).map (fun pr => (Json.num (-(pr.1 : Int)), pr.2))
      else if '0' ≤ c ∧ c ≤ '9' then
        (parseDigits (c :: rest)).map (fun pr => (Json.num (pr.1 : Int), pr.2))
      else none

/-- Comma-separated JSON array elements, consuming the closing bracket. -/
def parseElems : Nat → List Char → Option (List Json × List Char)
  | 0, _ => none
  | fuel+1, cs =>
    match parseValue fuel cs with
    | some (v, r) =>
      match skipWs r with
      | ',' :: r2 =>
        (parseElems fuel r2).map (fun pr => (v :: pr.1, pr.2))
      | ']' :: r2 => some ([v], r2)
      | _ => none
    | none => none

/-- Comma-separated JSON object members, consuming the closing brace. -/
def parseMembers : Nat → List Char → Option (List (String × Json) × List Char)
  | 0, _ => none
  | fuel+1, cs =>
    match skipWs cs with
    | '"' :: rest =>
      match parseStringChars fuel rest with
      | some (kcs, r2) =>
        match skipWs r2 with
        | ':' :: r3 =>
          match parseValue fuel r3 with
          | some (v, r4) =>
            match skipWs r4 with
            | ',' :: r5 =>
              (parseMembers fuel r5).map
                (fun pr => ((String.mk kcs, v) :: pr.1, pr.2))
            | '\x7d' :: r5 => some ([(String.mk kcs, v)], r5)
            | _ => none
          | none => none
        | _ => none
      | none => none
    | _ => none

end

/-- Model of `JSON.parse`; `none` models a thrown `SyntaxError`. -/
def jsonParse (s : String) : Option Json :=
  match parseValue (2 * s.toList.length + 8) s.toList with
  | some (j, rest) => if skipWs rest = [] then some j else none
  | none => none

/-- Property access `j[k]` on a parsed JSON value through optional chaining:
`none` models `undefined` (missing key or non-object receiver). -/
def jsonField : Json → String → Option Json
  | Json.obj kvs, k => (kvs.find? (fun p => p.1 == k)).map (fun p => p.2)
  | _, _ => none

/-- Escaping of one character inside a JSON string literal. -/
def jsonEscapeChar (c : Char) : List Char :=
  if c = '"' then ['\\', '"']
  else if c = '\\' then ['\\', '\\']
  else [c]

/-- A JSON string literal with quotes and escaping. -/
def jsonQuote (s : String) : String :=
  String.mk ('"' :: s.toList.foldr (fun c acc => jsonEscapeChar c ++ acc) ['"'])

mutual

/-- Model of `JSON.stringify` on `Json` values (no indentation argument). -/
def jsonStringify : Json → String
  | Json.null => "null"
  | Json.bool true => "true"
  | Json.bool false => "false"
  | Json.num n => toString n
  | Json.str s => jsonQuote s
  | Json.arr es => "[" ++ stringifyElems es ++ "]"
  | Json.obj kvs => "\x7b" ++ stringifyMembers kvs ++ "\x7d"

/-- Comma-joined stringified array elements. -/
def stringifyElems : List Json → String
  | [] => ""
  | [j] => jsonStringify j
  | j :: rest => jsonStringify j ++ "," ++ stringifyElems rest

/-- Comma-joined stringified object members. -/
def stringifyMembers : List (String × Json) → String
  | [] => ""
  | [(k, v)] => jsonQuote k ++ ":" ++ jsonStringify v
  | (k, v) :: rest =>
    jsonQuote k ++ ":" ++ jsonStringify v ++ "," ++ stringifyMembers rest

end

/-- Characters left unescaped by `encodeURIComponent`. -/
def isURIUnreserved (c : Char) : Bool :=
  c.isAlpha || c.isDigit || c = '-' || c = '_' || c = '.' || c = '!' ||
    c = '~' || c = '*' || c = Char.ofNat 39 || c = '(' || c = ')'

/-- Model of the JS global `encodeURIComponent` on ASCII input. -/
def encodeURIComponent (s : String) : String :=
  String.mk (s.toList.foldr (fun c acc =>
    if isURIUnreserved c then c :: acc
    else '%' :: hexDigitUpper (c.toNat / 16) :: hexDigitUpper (c.toNat % 16)
      :: acc) [])

-- ============================================================================
-- Title Deriver (`deriveTitleFromPath`, lines 32-77)
-- ============================================================================

/-- Lookup in the `routeTitles` table (lines 33-41). Every stored title is a
nonempty string, so the JS truthiness test `if (routeTitles[pathname])` is
exactly a found-in-table test. -/
def routeTitles (pathname : String) : Option String :=
  if pathname = "/" then some ("Overview")
  else if pathname = "/favorites" then some ("Favorites")
  else if pathname = "/recents" then some ("Recents")
  else if pathname = "/file-kinds" then some ("File Kinds")
  else if pathname = "/search" then some ("Search")
  else if pathname = "/jobs" then some ("Jobs")
  else if pathname = "/daemon" then some ("Daemon")
  else none

/-- The `try`-block over the decoded `path` query parameter (lines 61-72):
decode, parse, read `.Physical.path`, take the last nonempty `/`-segment.
Every failure (a thrown `URIError`/`SyntaxError`/`TypeError`, a missing or
falsy field, no segments) lands on the `'Explorer'` fallback: a truthy
non-string `path` throws at `.split` and is caught, a falsy one fails the
`if` guard, both reaching `return 'Explorer'`. -/
def explorerTitleFromPathParam (pathParam : String) : String :=
  match decodeURIComponent pathParam with
  | none => "Explorer"
  | some decoded =>
    match jsonParse decoded with
    | none => "Explorer"
    | some sdPath =>
      match jsonField sdPath ("Physical") >>= (fun ph => jsonField ph ("path")) with
      | some (Json.str fullPath) =>
        if fullPath ≠ "" then
          let parts := (stringSplitChar '/' fullPath).filter (fun p => p ≠ "")
          (parts.getLast?).getD ("Explorer")
        else ("Explorer")
      | _ => "Explorer"

/-- `deriveTitleFromPath(pathname, search)` (lines 32-77). -/
def deriveTitleFromPath (pathname : String) (search : String) : String :=
  match routeTitles pathname with
  | some t => t
  | none =>
    if List.isPrefixOf ("/tag/").toList pathname.toList then
      match (stringSplitChar '/' pathname)[2]? with
      | some tagId =>
        if tagId ≠ "" then ("Tag: " ++ String.mk (tagId.toList.take 8) ++ "...") else ("Tag")
      | none => "Tag"
    else if pathname = "/explorer" ∧ search ≠ "" then
      if searchParamsGet search ("view") = some ("device") then ("This Device")
      else
        match searchParamsGet search ("path") with
        | some pathParam =>
          if pathParam ≠ "" then explorerTitleFromPathParam pathParam
          else ("Explorer")
        | none => "Explorer"
    else ("Spacedrive")

-- ============================================================================
-- Persistence (`loadPersistedState`, lines 140-177) and initialization
-- (provider initializers, lines 279-320)
-- ============================================================================

/-- What `localStorage.getItem(STORAGE_KEY)` plus `JSON.parse` can yield:
no stored value, a stored value that is not valid JSON (`JSON.parse`
throws), or a parsed JSON document. -/
inductive StoredBlob where
  | absent
  | malformed
  | parsed (j : Json)

/-- JS `Array.isArray`. -/
def isJsonArray : Json → Bool
  | Json.arr _ => true
  | _ => false

/-- JS `typeof v === 'string'`. -/
def isJsonString : Json → Bool
  | Json.str _ => true
  | _ => false

/-- JS `typeof v === 'object'` on a parsed JSON value: `null`, arrays and
objects all have type `'object'`. -/
def hasObjectType : Json → Bool
  | Json.null => true
  | Json.arr _ => true
  | Json.obj _ => true
  | _ => false

/-- A keyed mapping in the sense of the documented persisted layout
(`explorerStates: { [tabId]: ExplorerViewState }`): a JSON object. -/
def isKeyedMapping : Json → Bool
  | Json.obj _ => true
  | _ => false

/-- `loadPersistedState` (lines 149-169): `none` for an absent or unparseable
blob; otherwise the parsed document when `tabs` is an array, `activeTabId` is
a string and `explorerStates` has JS type `'object'`, else `none`. Property
access on a parsed non-object yields `undefined` (or throws inside the `try`
for `null`), failing these checks. -/
def loadPersistedState : StoredBlob → Option Json
  | StoredBlob.absent => none
  | StoredBlob.malformed => none
  | StoredBlob.parsed j =>
    let tabsOk := match jsonField j ("tabs") with
      | some v => isJsonArray v
      | none => false
    let activeOk := match jsonField j ("activeTabId") with
      | some v => isJsonString v
      | none => false
    let statesOk := match jsonField j ("explorerStates") with
      | some v => hasObjectType v
      | none => false
    if tabsOk && activeOk && statesOk then some j else none

/-- The default tab synthesized by the `tabs` initializer (lines 285-295). -/
def mkDefaultTab (freshId : String) (now : Nat) : Tab :=
  { id := freshId
    title := "Overview"
    icon := none
    isPinned := false
    lastActive := now
    savedPath := "/" }

/-- Result of the `tabs` initializer: either the persisted raw tab objects or
one synthesized default tab. -/
inductive InitialTabs where
  | fromPersisted (tabs : List Json)
  | synthesized (tab : Tab)
deriving Repr

/-- The `useState` initializer for `tabs` (lines 279-296): adopt the persisted
tabs when a valid snapshot exists and its tab array is nonempty, else
synthesize a single default tab at path `/`. -/
def initialTabs (blob : StoredBlob) (freshId : String) (now : Nat) :
    InitialTabs :=
  match loadPersistedState blob with
  | some p =>
    match jsonField p ("tabs") with
    | some (Json.arr ts) =>
      if ts.length > 0 then InitialTabs.fromPersisted ts
      else InitialTabs.synthesized (mkDefaultTab freshId now)
    | _ => InitialTabs.synthesized (mkDefaultTab freshId now)
  | none => InitialTabs.synthesized (mkDefaultTab freshId now)

/-- Number of tabs an initializer outcome holds. -/
def InitialTabs.count : InitialTabs → Nat
  | InitialTabs.fromPersisted ts => ts.length
  | InitialTabs.synthesized _ => 1

-- ============================================================================
-- Tab Manager (provider operations, lines 356-526)
-- ============================================================================

/-- The provider's live state: the reactive `tabs` and `activeTabId`, the
external explorer store, the per-tab selection map and the configured
default-new-tab path. -/
structure TMState where
  tabs : List Tab
  activeTabId : String
  explorer : ExplorerStateStore
  selection : List (String × List String)
  defaultNewTabPath : String
deriving DecidableEq, Repr

/-- Title derivation for a tab path as done inside `createTab`
(lines 363-366): destructure `tabPath.split('?')` into pathname and query,
reattach the `?` when the query is nonempty, and derive. -/
def deriveTitleForPath (tabPath : String) : String :=
  let pieces := stringSplitChar '?' tabPath
  let pathname := pieces.headD ("")
  let search := (pieces[1]?).getD ("")
  deriveTitleFromPath pathname (if search ≠ "" then ("?" ++ search) else (""))

/-- `createTab` (lines 360-387). `crypto.randomUUID()` and `Date.now()` are
modelled as the explicit inputs `newId` and `now`. A supplied title is used
only when truthy (`title || derived`), so the empty string falls back to the
derived title. -/
def createTab (s : TMState) (title : Option String) (path : Option String)
    (newId : String) (now : Nat) : TMState :=
  let tabPath := path.getD s.defaultNewTabPath
  let derivedTitle :=
    match title with
    | some t => if t ≠ "" then t else deriveTitleForPath tabPath
    | none => deriveTitleForPath tabPath
  let newTab : Tab :=
    { id := newId
      title := derivedTitle
      icon := none
      isPinned := false
      lastActive := now
      savedPath := tabPath }
  { s with
    tabs := s.tabs ++ [newTab]
    activeTabId := newId
    explorer := (s.explorer.setState newId DEFAULT_EXPLORER_STATE).1
    selection := mapSet s.selection newId [] }

/-- `closeTab` (lines 389-421). The tab-list update keeps the previous list
when the removal would empty it; the teardown of the explorer entry and the
selection entry is unconditional (it sits outside the `setTabs` updater). -/
def closeTab (s : TMState) (tabId : String) : TMState :=
  let prev := s.tabs
  let filtered := prev.filter (fun t => t.id != tabId)
  let updated :=
    if filtered.isEmpty then (prev, s.activeTabId)
    else if tabId = s.activeTabId then
      let newIndex :=
        match prev.findIdx? (fun t => t.id == tabId) with
        | some i => i - 1
        | none => 0
      match (filtered[newIndex]?).orElse (fun _ => filtered[0]?) with
      | some t => (filtered, t.id)
      | none => (filtered, s.activeTabId)
    else (filtered, s.activeTabId)
  { s with
    tabs := updated.1
    activeTabId := updated.2
    explorer := (s.explorer.deleteState tabId).1
    selection := mapDelete s.selection tabId }

/-- `switchTab` (lines 423-438): no-op when already active, else stamp the
target tab's `lastActive` and move the pointer — with no check that the id
exists in the list. -/
def switchTab (s : TMState) (newTabId : String) (now : Nat) : TMState :=
  if newTabId = s.activeTabId then s
  else
    { s with
      tabs := s.tabs.map (fun tab =>
        if tab.id = newTabId then { tab with lastActive := now } else tab)
      activeTabId := newTabId }

/-- `updateTabTitle` (lines 440-444). -/
def updateTabTitle (s : TMState) (tabId : String) (title : String) : TMState :=
  { s with
    tabs := s.tabs.map (fun tab =>
      if tab.id = tabId then { tab with title := title } else tab) }

/-- `updateTabPath` (lines 446-452). -/
def updateTabPath (s : TMState) (tabId : String) (path : String) : TMState :=
  { s with
    tabs := s.tabs.map (fun tab =>
      if tab.id = tabId then { tab with savedPath := path } else tab) }

/-- The list transformation inside `reorderTabs` (lines 454-469): splice the
moved tab out of its old index and back in at the target's former index. -/
def reorderList (tabs : List Tab) (activeId : String) (overId : String) :
    List Tab :=
  match tabs.findIdx? (fun t => t.id == activeId),
        tabs.findIdx? (fun t => t.id == overId) with
  | some oldIndex, some newIndex =>
    if oldIndex = newIndex then tabs
    else
      match tabs[oldIndex]? with
      | some movedTab => (tabs.eraseIdx oldIndex).insertIdx newIndex movedTab
      | none => tabs
  | _, _ => tabs

/-- `reorderTabs` (lines 454-469). -/
def reorderTabs (s : TMState) (activeId : String) (overId : String) :
    TMState :=
  { s with tabs := reorderList s.tabs activeId overId }

/-- `nextTab` (lines 471-475): cyclic successor by list order. A missing
active id plays as JS index `-1`. -/
def nextTab (s : TMState) (now : Nat) : TMState :=
  let currentIndex : Int :=
    match s.tabs.findIdx? (fun t => t.id == s.activeTabId) with
    | some i => (i : Int)
    | none => -1
  let nextIndex := ((currentIndex + 1).tmod (s.tabs.length : Int)).toNat
  match s.tabs[nextIndex]? with
  | some t => switchTab s t.id now
  | none => s

/-- `previousTab` (lines 477-481): cyclic predecessor by list order. -/
def previousTab (s : TMState) (now : Nat) : TMState :=
  let currentIndex : Int :=
    match s.tabs.findIdx? (fun t => t.id == s.activeTabId) with
    | some i => (i : Int)
    | none => -1
  let prevIndex :=
    ((currentIndex - 1 + (s.tabs.length : Int)).tmod
      (s.tabs.length : Int)).toNat
  match s.tabs[prevIndex]? with
  | some t => switchTab s t.id now
  | none => s

/-- `selectTabAtIndex` (lines 483-490): bounds-checked switch. -/
def selectTabAtIndex (s : TMState) (index : Int) (now : Nat) : TMState :=
  if 0 ≤ index ∧ index < (s.tabs.length : Int) then
    match s.tabs[index.toNat]? with
    | some t => switchTab s t.id now
    | none => s
  else s

/-- `setDefaultNewTabPath` (lines 356-358). -/
def setDefaultNewTabPath (s : TMState) (path : String) : TMState :=
  { s with defaultNewTabPath := path }

/-- `getExplorerState` (lines 496-501), reading through the external store. -/
def TMState.getExplorerState (s : TMState) (tabId : String) :
    TabExplorerState :=
  s.explorer.getState tabId

/-- `updateExplorerState` (lines 503-508), delegating to the external store. -/
def TMState.updateExplorerState (s : TMState) (tabId : String)
    (u : TabExplorerStateUpdate) : TMState :=
  { s with explorer := (s.explorer.updateState tabId u).1 }

/-- `getSelectionIds` (lines 514-519). -/
def TMState.getSelectionIds (s : TMState) (tabId : String) : List String :=
  (mapGet s.selection tabId).getD []

/-- `updateSelectionIds` (lines 521-526). -/
def TMState.updateSelectionIds (s : TMState) (tabId : String)
    (fileIds : List String) : TMState :=
  { s with selection := mapSet s.selection tabId fileIds }

/-- One Tab Manager operation, with its nondeterministic environment inputs
(fresh UUIDs, clock readings) made explicit. -/
inductive TMOp where
  | createTab (title : Option String) (path : Option String)
      (newId : String) (now : Nat)
  | closeTab (tabId : String)
  | switchTab (tabId : String) (now : Nat)
  | updateTabTitle (tabId : String) (title : String)
  | updateTabPath (tabId : String) (path : String)
  | reorderTabs (activeId : String) (overId : String)
  | nextTab (now : Nat)
  | previousTab (now : Nat)
  | selectTabAtIndex (index : Int) (now : Nat)
  | setDefaultNewTabPath (path : String)
  | updateExplorerState (tabId : String) (u : TabExplorerStateUpdate)
  | updateSelectionIds (tabId : String) (fileIds : List String)

/-- Interpretation of one operation on the provider state. -/
def applyOp (s : TMState) : TMOp → TMState
  | TMOp.createTab title path newId now => createTab s title path newId now
  | TMOp.closeTab tabId => closeTab s tabId
  | TMOp.switchTab tabId now => switchTab s tabId now
  | TMOp.updateTabTitle tabId title => updateTabTitle s tabId title
  | TMOp.updateTabPath tabId path => updateTabPath s tabId path
  | TMOp.reorderTabs activeId overId => reorderTabs s activeId overId
  | TMOp.nextTab now => nextTab s now
  | TMOp.previousTab now => previousTab s now
  | TMOp.selectTabAtIndex index now => selectTabAtIndex s index now
  | TMOp.setDefaultNewTabPath path => setDefaultNewTabPath s path
  | TMOp.updateExplorerState tabId u => s.updateExplorerState tabId u
  | TMOp.updateSelectionIds tabId fileIds => s.updateSelectionIds tabId fileIds

/-- Interpretation of a whole operation sequence. -/
def applyOps (s : TMState) (ops : List TMOp) : TMState :=
  ops.foldl applyOp s

/-- Follows the spec words of C4 only (not the source): after closing the
active tab, the new active tab is "the one immediately preceding it in the
prior order, or the first tab of the list when the closed tab had no
predecessor" (the first tab of the resulting list). -/
def specCloseNewActive (tabs : List Tab) (closedId : String) : Option String :=
  match tabs.findIdx? (fun t => t.id == closedId) with
  | none => none
  | some i =>
    if i = 0 then
      ((tabs.filter (fun t => t.id != closedId)).head?).map Tab.id
    else (tabs[i - 1]?).map Tab.id

-- ============================================================================
-- Concrete instances used by witnesses and counterexamples
-- ============================================================================

/-- A concrete tab with a given id. -/
def exTab (i : String) : Tab :=
  { id := i
    title := "t"
    icon := none
    isPinned := false
    lastActive := 0
    savedPath := "/" }

/-- A one-tab provider state with empty stores. -/
def exState : TMState :=
  { tabs := [exTab ("a")]
    activeTabId := "a"
    explorer := { states := [], listeners := [] }
    selection := []
    defaultNewTabPath := "/" }

/-- A one-tab provider state whose single tab carries a non-default explorer
state and a nonempty selection. -/
def exState2 : TMState :=
  { tabs := [exTab ("a")]
    activeTabId := "a"
    explorer :=
      { states := [("a", { DEFAULT_EXPLORER_STATE with sortBy := SortBy.size })]
        listeners := [] }
    selection := [("a", ["f1"])]
    defaultNewTabPath := "/" }

/-- A two-tab provider state (active tab second). -/
def exState3 : TMState :=
  { tabs := [exTab ("a"), exTab ("b")]
    activeTabId := "b"
    explorer := { states := [], listeners := [] }
    selection := []
    defaultNewTabPath := "/" }

/-- Three tabs in the order a, c, b. -/
def exTabs3 : List Tab := [exTab ("a"), exTab ("c"), exTab ("b")]

/-- A persisted blob whose `explorerStates` is JSON `null`: not a keyed
mapping, yet of JS type `'object'`. -/
def exBlob : Json :=
  Json.obj
    [("tabs", Json.arr []), ("activeTabId", Json.str ("x")),
     ("explorerStates", Json.null)]

/-- The documented `SdPath` object `\x7bPhysical:\x7bpath:'/Users/me/Documents'\x7d\x7d`. -/
def sdPathDocuments : Json :=
  Json.obj [("Physical", Json.obj [("path", Json.str ("/Users/me/Documents"))])]

-- ============================================================================
-- Helper lemmas
-- ============================================================================

theorem mapGet_mapSet_self {α : Type} (m : List (String × α)) (k : String)
    (v : α) : mapGet (mapSet m k v) k = some v := by
  induction m with
  | nil => simp [mapGet, mapSet]
  | cons hd tl ih =>
    by_cases h : hd.1 = k
    · simp [mapGet, mapSet, h, List.find?]
    · have hne : (hd.1 == k) = false := by simp [h]
      simpa [mapGet, mapSet, hne, List.find?] using ih

theorem mapDelete_of_absent {α : Type} (m : List (String × α)) (k : String)
    (h : mapGet m k = none) : mapDelete m k = m := by
  induction m with
  | nil => rfl
  | cons hd tl ih =>
    by_cases hh : hd.1 = k
    · simp [mapGet, List.find?, hh] at h
    · have hne : (hd.1 == k) = false := by simp [hh]
      have h' : mapGet tl k = none := by
        simpa [mapGet, List.find?, hne] using h
      simp [mapDelete, hne, ih h']

theorem map_update_id (l : List Tab) (tabId : String) (f : Tab → Tab)
    (h : ∀ t ∈ l, t.id ≠ tabId) :
    l.map (fun tab => if tab.id = tabId then f tab else tab) = l := by
  induction l with
  | nil => rfl
  | cons hd tl ih =>
    have h1 : hd.id ≠ tabId := h hd (by simp)
    simp only [List.map_cons, if_neg h1, List.cons.injEq, true_and]
    exact ih (fun t ht => h t (by simp [ht]))

theorem filter_ne_of_all_ne (l : List Tab) (tabId : String)
    (h : ∀ t ∈ l, t.id ≠ tabId) :
    l.filter (fun t => t.id != tabId) = l := by
  rw [List.filter_eq_self]
  intro t ht
  simpa using h t ht

theorem count_map_pair (L : List ListenerId) (t : String) (l : ListenerId)
    (hnd : L.Nodup) (hmem : l ∈ L) : (notifyCalls L t).count (l, t) = 1 := by
  induction L with
  | nil => cases hmem
  | cons a L ih =>
    rcases List.nodup_cons.mp hnd with ⟨ha, hL⟩
    rcases List.mem_cons.mp hmem with h | h
    · subst h
      have hzero : (notifyCalls L t).count (l, t) = 0 := by
        rw [List.count_eq_zero]
        intro hc
        rcases List.mem_map.mp hc with ⟨x, hx, hxe⟩
        cases hxe
        exact ha hx
      simp only [notifyCalls] at hzero
      simp [notifyCalls, List.count_cons, hzero]
    · have hne : a ≠ l := fun he => ha (he ▸ h)
      have := ih hL h
      simp only [notifyCalls, List.map_cons, List.count_cons] at this ⊢
      simp [this, hne, Ne.symm hne]

-- ============================================================================
-- Claim theorems
-- ============================================================================

/-- C5: `updateExplorerState(id, sortBy := size)` followed by
`getExplorerState(id)` yields `sortBy = size` with every other field equal to
its prior value, the prior state being the stored state or the documented
default when no entry existed (partial-merge semantics). -/
theorem updateExplorerState_partial_merge (s : TMState) (tabId : String) :
    (s.updateExplorerState tabId { sortBy := some SortBy.size }).getExplorerState
        tabId
      = { s.getExplorerState tabId with sortBy := SortBy.size } ∧
    s.getExplorerState tabId
      = (mapGet s.explorer.states tabId).getD DEFAULT_EXPLORER_STATE := by
  constructor
  · simp [TMState.updateExplorerState, TMState.getExplorerState,
      ExplorerStateStore.updateState, ExplorerStateStore.getState,
      mapGet_mapSet_self, applyUpdate]
  · rfl

/-- C6: every `setState`/`updateState`/`deleteState` notification consists of
exactly one call per registered listener, each carrying the changed tab id
unfiltered; the consumer filter of `useTabExplorerState` fires exactly on its
own tab id or the broadcast sentinel, never on a different tab's id. -/
theorem explorer_store_notification_exact :
    (∀ (st : ExplorerStateStore) (tabId : String) (v : TabExplorerState)
        (u : TabExplorerStateUpdate),
      (st.setState tabId v).2 = notifyCalls st.listeners tabId ∧
      (st.updateState tabId u).2 = notifyCalls st.listeners tabId ∧
      (st.deleteState tabId).2 = notifyCalls st.listeners tabId) ∧
    (∀ (L : List ListenerId) (tabId : String) (l : ListenerId),
      L.Nodup → l ∈ L → (notifyCalls L tabId).count (l, tabId) = 1) ∧
    (∀ (L : List ListenerId) (tabId : String) (c : ListenerId × String),
      c ∈ notifyCalls L tabId → c.2 = tabId ∧ c.1 ∈ L) ∧
    (∀ boundId changedId,
      tabSubscriberFires boundId changedId = true ↔
        (changedId = "" ∨ changedId = boundId)) := by
  refine ⟨fun st tabId v u => ⟨rfl, rfl, rfl⟩, count_map_pair, ?_, ?_⟩
  · intro L tabId c hc
    rcases List.mem_map.mp hc with ⟨x, hx, hxe⟩
    cases hxe
    exact ⟨rfl, hx⟩
  · intro boundId changedId
    simp [tabSubscriberFires]

/-- C6 witness: with two registered listeners, an update's notification calls
listener 0 exactly once. -/
theorem explorer_store_notification_exact_witness :
    (notifyCalls [0, 1] ("a")).count (0, "a") = 1 :=
  explorer_store_notification_exact.2.1 [0, 1] ("a") 0 (by decide) (by decide)

/-- C9: the four documented examples of the title deriver. -/
theorem deriveTitle_documented_examples :
    deriveTitleFromPath ("/favorites") ("") = "Favorites" ∧
    deriveTitleFromPath ("/tag/abcdef1234") ("") = "Tag: abcdef12..." ∧
    deriveTitleFromPath ("/explorer")
        ("?path=" ++ encodeURIComponent (jsonStringify sdPathDocuments))
      = "Documents" ∧
    deriveTitleFromPath ("/unknown-route") ("") = "Spacedrive" :=
  ⟨rfl, rfl, rfl, rfl⟩

/-- C10: `createTab` with an explicit empty-string title behaves exactly like
`createTab` with no title, and the created tab's title is the one derived
from the resolved path. -/
theorem createTab_empty_title_uses_derived (s : TMState) (path : Option String)
    (newId : String) (now : Nat) :
    createTab s (some ("")) path newId now = createTab s none path newId now ∧
    ((createTab s (some ("")) path newId now).tabs.getLast?).map Tab.title
      = some (deriveTitleForPath (path.getD s.defaultNewTabPath)) := by
  constructor
  · rfl
  · simp [createTab]

/-- C7 counterexample: a blob whose `explorerStates` is JSON `null` — not a
keyed mapping — passes validation (`typeof null === 'object'`), so not every
violation of the documented shape discards the snapshot. -/
theorem loadPersistedState_accepts_null_explorerStates :
    loadPersistedState (StoredBlob.parsed exBlob) = some exBlob ∧
    jsonField exBlob ("explorerStates") = some Json.null ∧
    isKeyedMapping Json.null = false :=
  ⟨rfl, rfl, rfl⟩

/-- Inversion for the `Array.isArray` test. -/
theorem isJsonArray_eq_true (v : Json) (h : isJsonArray v = true) :
    ∃ ts, v = Json.arr ts := by
  cases v with
  | arr ts => exact ⟨ts, rfl⟩
  | null => simp [isJsonArray] at h
  | bool b => simp [isJsonArray] at h
  | num n => simp [isJsonArray] at h
  | str sv => simp [isJsonArray] at h
  | obj kvs => simp [isJsonArray] at h

/-- Inversion for the `typeof v === 'string'` test. -/
theorem isJsonString_eq_true (v : Json) (h : isJsonString v = true) :
    ∃ sv, v = Json.str sv := by
  cases v with
  | str sv => exact ⟨sv, rfl⟩
  | null => simp [isJsonString] at h
  | bool b => simp [isJsonString] at h
  | num n => simp [isJsonString] at h
  | arr ts => simp [isJsonString] at h
  | obj kvs => simp [isJsonString] at h

/-- C7 amended: loading validates that `tabs` is an array and `activeTabId` a
string, but for `explorerStates` only that its JS type is `'object'` (which
also admits `null` and arrays); an absent or unparseable blob, or one whose
`tabs` is not an array, yields no snapshot and the initializer falls back
without throwing to the synthesized single default tab at path `/`. -/
theorem load_validation_amended :
    (∀ freshId now,
      initialTabs StoredBlob.absent freshId now
          = InitialTabs.synthesized (mkDefaultTab freshId now) ∧
      initialTabs StoredBlob.malformed freshId now
          = InitialTabs.synthesized (mkDefaultTab freshId now) ∧
      (mkDefaultTab freshId now).savedPath = "/") ∧
    (∀ j freshId now, (∀ ts, jsonField j ("tabs") ≠ some (Json.arr ts)) →
      initialTabs (StoredBlob.parsed j) freshId now
          = InitialTabs.synthesized (mkDefaultTab freshId now)) ∧
    (∀ j j', loadPersistedState (StoredBlob.parsed j) = some j' →
      j' = j ∧
      (∃ ts, jsonField j ("tabs") = some (Json.arr ts)) ∧
      (∃ a, jsonField j ("activeTabId") = some (Json.str a)) ∧
      (∃ v, jsonField j ("explorerStates") = some v ∧
        hasObjectType v = true)) := by
  refine ⟨fun freshId now => ⟨rfl, rfl, rfl⟩, ?_, ?_⟩
  · intro j freshId now h
    rcases hl : loadPersistedState (StoredBlob.parsed j) with _ | p
    · simp [initialTabs, hl]
    · have hpj : p = j := by
        simp only [loadPersistedState] at hl
        split at hl
        · exact (Option.some_inj.mp hl).symm
        · cases hl
      subst hpj
      rcases hf : jsonField p ("tabs") with _ | v
      · simp [initialTabs, hl, hf]
      · cases v with
        | arr ts => exact absurd hf (h ts)
        | null => simp [initialTabs, hl, hf]
        | bool b => simp [initialTabs, hl, hf]
        | num n => simp [initialTabs, hl, hf]
        | str sv => simp [initialTabs, hl, hf]
        | obj kvs => simp [initialTabs, hl, hf]
  · intro j j' h
    simp only [loadPersistedState] at h
    split at h
    · rename_i hcond
      simp only [Bool.and_eq_true] at hcond
      obtain ⟨⟨h1, h2⟩, h3⟩ := hcond
      refine ⟨(Option.some_inj.mp h).symm, ?_, ?_, ?_⟩
      · rcases hf : jsonField j ("tabs") with _ | v <;> rw [hf] at h1
        · simp at h1
        · obtain ⟨ts, rfl⟩ := isJsonArray_eq_true v h1
          exact ⟨ts, rfl⟩
      · rcases hf : jsonField j ("activeTabId") with _ | v <;> rw [hf] at h2
        · simp at h2
        · obtain ⟨a, rfl⟩ := isJsonString_eq_true v h2
          exact ⟨a, rfl⟩
      · rcases hf : jsonField j ("explorerStates") with _ | v <;>
          rw [hf] at h3
        · simp at h3
        · exact ⟨v, rfl, h3⟩
    · cases h

/-- C7 amended witness: a blob whose `tabs` is a string falls back to the
synthesized default tab. -/
theorem load_validation_amended_witness :
    initialTabs (StoredBlob.parsed (Json.obj [("tabs", Json.str ("no"))])) ("u1") 3
        = InitialTabs.synthesized (mkDefaultTab ("u1") 3) :=
  load_validation_amended.2.1 (Json.obj [("tabs", Json.str ("no"))]) ("u1") 3
    (fun ts hts => by cases hts)

/-- C2 counterexample: `switchTab` on a tab id absent from the list is not a
no-op — it moves the active-tab pointer to the unknown id. -/
theorem switchTab_unknown_id_changes_active :
    ¬ ("zzz" ∈ exState.tabs.map Tab.id) ∧
    (switchTab exState ("zzz") 5).activeTabId ≠ exState.activeTabId := by
  decide

/-- C2 amended: on an id absent from the tab list (with the active id present
and the stores holding no entry for the unknown id), `closeTab`,
`updateTabTitle`, `updateTabPath` and `reorderTabs` are silent no-ops leaving
the whole state unchanged; `switchTab`, however, leaves the tab list and
stores unchanged but sets the active-tab pointer to the unknown id. -/
theorem unknown_id_ops_noop_amended (s : TMState) (tabId : String)
    (h1 : tabId ∉ s.tabs.map Tab.id)
    (h2 : s.activeTabId ∈ s.tabs.map Tab.id)
    (h3 : mapGet s.selection tabId = none)
    (h4 : mapGet s.explorer.states tabId = none) :
    closeTab s tabId = s ∧
    (∀ title, updateTabTitle s tabId title = s) ∧
    (∀ path, updateTabPath s tabId path = s) ∧
    (∀ other, reorderTabs s tabId other = s) ∧
    (∀ other, reorderTabs s other tabId = s) ∧
    (∀ now, switchTab s tabId now = { s with activeTabId := tabId }) := by
  have hne : ∀ t ∈ s.tabs, t.id ≠ tabId := by
    intro t ht he
    exact h1 (he ▸ List.mem_map_of_mem Tab.id ht)
  have hneact : tabId ≠ s.activeTabId := fun he => h1 (he ▸ h2)
  have htabs : s.tabs ≠ [] := by
    intro he
    rw [he] at h2
    simp at h2
  have hfil : s.tabs.filter (fun t => t.id != tabId) = s.tabs :=
    filter_ne_of_all_ne s.tabs tabId hne
  have hfind : s.tabs.findIdx? (fun t => t.id == tabId) = none := by
    rw [List.findIdx?_eq_none_iff]
    intro t ht
    simp [hne t ht]
  refine ⟨?_, ?_, ?_, ?_, ?_, ?_⟩
  · have hempty : (s.tabs.filter (fun t => t.id != tabId)).isEmpty = false := by
      rw [hfil]
      cases hc : s.tabs with
      | nil => exact absurd hc htabs
      | cons a l => rfl
    simp only [closeTab, hempty, Bool.false_eq_true, if_false, hfil,
      if_neg hneact, ExplorerStateStore.deleteState,
      mapDelete_of_absent _ _ h3, mapDelete_of_absent _ _ h4, ite_self]
  · intro title
    simp only [updateTabTitle, map_update_id _ _ _ hne]
  · intro path
    simp only [updateTabPath, map_update_id _ _ _ hne]
  · intro other
    simp [reorderTabs, reorderList, hfind]
  · intro other
    rcases ho : s.tabs.findIdx? (fun t => t.id == other) with _ | i <;>
      simp [reorderTabs, reorderList, hfind, ho]
  · intro now
    simp only [switchTab, if_neg hneact, map_update_id _ _ _ hne]

/-- C2 amended witness: `closeTab` of an unknown id on the one-tab state is
the identity. -/
theorem unknown_id_ops_noop_amended_witness :
    closeTab exState ("zzz") = exState :=
  (unknown_id_ops_noop_amended exState ("zzz") (by decide) (by decide) rfl
    rfl).1

/-- C3 counterexample: closing the only tab keeps the tab list and active
pointer but is not a full no-op — the tab's explorer-store entry and its
selection entry are deleted. -/
theorem closeTab_last_tab_not_full_noop :
    (closeTab exState2 ("a")).tabs = exState2.tabs ∧
    (closeTab exState2 ("a")).activeTabId = exState2.activeTabId ∧
    (closeTab exState2 ("a")).explorer.states ≠ exState2.explorer.states ∧
    (closeTab exState2 ("a")).selection ≠ exState2.selection := by
  decide

/-- C3 amended: closing the single remaining tab raises no error and leaves
the tab list and the active tab id unchanged, but it still tears down that
id's entries in the explorer store and the selection map. -/
theorem closeTab_last_tab_amended (s : TMState) (t : Tab) (h : s.tabs = [t]) :
    closeTab s t.id
      = { s with
          explorer :=
            { s.explorer with states := mapDelete s.explorer.states t.id }
          selection := mapDelete s.selection t.id } := by
  simp [closeTab, h, ExplorerStateStore.deleteState]

/-- C3 amended witness. -/
theorem closeTab_last_tab_amended_witness :
    closeTab exState2 ("a")
      = { exState2 with
          explorer :=
            { exState2.explorer with
                states := mapDelete exState2.explorer.states ("a") }
          selection := mapDelete exState2.selection ("a") } :=
  closeTab_last_tab_amended exState2 (exTab ("a")) rfl

/-- `switchTab` preserves non-emptiness of the tab list. -/
theorem switchTab_tabs_ne_nil (s : TMState) (tabId : String) (now : Nat)
    (h : s.tabs ≠ []) : (switchTab s tabId now).tabs ≠ [] := by
  unfold switchTab
  split
  · exact h
  · simpa using h

/-- `closeTab` preserves non-emptiness of the tab list. -/
theorem closeTab_tabs_ne_nil (s : TMState) (tabId : String)
    (h : s.tabs ≠ []) : (closeTab s tabId).tabs ≠ [] := by
  by_cases hF : (s.tabs.filter (fun t => t.id != tabId)).isEmpty = true
  · simpa [closeTab, hF] using h
  · have hFne : s.tabs.filter (fun t => t.id != tabId) ≠ [] := by
      intro he
      rw [he] at hF
      exact hF rfl
    simp only [closeTab, hF, Bool.false_eq_true, if_false]
    split
    · split
      · simpa using hFne
      · simpa using hFne
    · simpa using hFne

/-- `reorderTabs` never changes the length of the tab list. -/
theorem reorderList_length (tabs : List Tab) (a b : String) :
    (reorderList tabs a b).length = tabs.length := by
  unfold reorderList
  rcases hA : tabs.findIdx? (fun t => t.id == a) with _ | i
  · simp [hA]
  rcases hB : tabs.findIdx? (fun t => t.id == b) with _ | j
  · simp [hA, hB]
  by_cases hij : i = j
  · simp [hA, hB, hij]
  rcases hg : tabs[i]? with _ | mt
  · simp [hA, hB, hij, hg]
  have hi : i < tabs.length := by
    have := List.getElem?_eq_some_iff.mp hg
    exact this.1
  have hj : j < tabs.length :=
    (List.findIdx?_eq_some_iff_findIdx_eq.mp hB).1
  have hje : j ≤ (tabs.eraseIdx i).length := by
    rw [List.length_eraseIdx, if_pos hi]
    exact Nat.le_pred_of_lt hj
  simp only [hA, hB, hg, if_neg hij]
  rw [List.length_insertIdx _ _ hje, List.length_eraseIdx, if_pos hi]
  exact Nat.succ_pred_eq_of_pos (Nat.lt_of_le_of_lt (Nat.zero_le i) hi)

/-- `nextTab` preserves non-emptiness of the tab list. -/
theorem nextTab_tabs_ne_nil (s : TMState) (now : Nat)
    (h : s.tabs ≠ []) : (nextTab s now).tabs ≠ [] := by
  unfold nextTab
  split <;> (dsimp only; split) <;>
    first
      | exact switchTab_tabs_ne_nil s _ now h
      | exact h

/-- `previousTab` preserves non-emptiness of the tab list. -/
theorem previousTab_tabs_ne_nil (s : TMState) (now : Nat)
    (h : s.tabs ≠ []) : (previousTab s now).tabs ≠ [] := by
  unfold previousTab
  split <;> (dsimp only; split) <;>
    first
      | exact switchTab_tabs_ne_nil s _ now h
      | exact h

/-- `selectTabAtIndex` preserves non-emptiness of the tab list. -/
theorem selectTabAtIndex_tabs_ne_nil (s : TMState) (index : Int) (now : Nat)
    (h : s.tabs ≠ []) : (selectTabAtIndex s index now).tabs ≠ [] := by
  unfold selectTabAtIndex
  split
  · split
    · exact switchTab_tabs_ne_nil s _ now h
    · exact h
  · exact h

/-- Single-step preservation: no Tab Manager operation empties the tab
list. -/
theorem applyOp_tabs_ne_nil (s : TMState) (op : TMOp) (h : s.tabs ≠ []) :
    (applyOp s op).tabs ≠ [] := by
  cases op with
  | createTab title path newId now => simp [applyOp, createTab]
  | closeTab tabId => exact closeTab_tabs_ne_nil s tabId h
  | switchTab tabId now => exact switchTab_tabs_ne_nil s tabId now h
  | updateTabTitle tabId title => simpa [applyOp, updateTabTitle] using h
  | updateTabPath tabId path => simpa [applyOp, updateTabPath] using h
  | reorderTabs a b =>
    intro he
    have he' : reorderList s.tabs a b = [] := he
    have hlen := reorderList_length s.tabs a b
    rw [he'] at hlen
    exact h (List.eq_nil_of_length_eq_zero hlen.symm)
  | nextTab now => exact nextTab_tabs_ne_nil s now h
  | previousTab now => exact previousTab_tabs_ne_nil s now h
  | selectTabAtIndex index now => exact selectTabAtIndex_tabs_ne_nil s index now h
  | setDefaultNewTabPath path => exact h
  | updateExplorerState tabId u => exact h
  | updateSelectionIds tabId fileIds => exact h

/-- C1: initialization always yields at least one tab, and no sequence of Tab
Manager operations applied to a state with a nonempty tab list can empty it
(in particular `closeTab` never removes the final tab). -/
theorem tab_list_never_empty :
    (∀ blob freshId now, 0 < (initialTabs blob freshId now).count) ∧
    (∀ (s : TMState) (ops : List TMOp),
      s.tabs ≠ [] → (applyOps s ops).tabs ≠ []) := by
  constructor
  · intro blob freshId now
    cases blob with
    | absent => simp [initialTabs, loadPersistedState, InitialTabs.count]
    | malformed => simp [initialTabs, loadPersistedState, InitialTabs.count]
    | parsed j =>
      rcases hl : loadPersistedState (StoredBlob.parsed j) with _ | p
      · simp [initialTabs, hl, InitialTabs.count]
      · rcases hf : jsonField p ("tabs") with _ | v
        · simp [initialTabs, hl, hf, InitialTabs.count]
        · cases v with
          | arr ts =>
            by_cases hts : ts.length > 0
            · simp [initialTabs, hl, hf, hts, InitialTabs.count]
            · simp [initialTabs, hl, hf, hts, InitialTabs.count]
          | null => simp [initialTabs, hl, hf, InitialTabs.count]
          | bool b => simp [initialTabs, hl, hf, InitialTabs.count]
          | num n => simp [initialTabs, hl, hf, InitialTabs.count]
          | str sv => simp [initialTabs, hl, hf, InitialTabs.count]
          | obj kvs => simp [initialTabs, hl, hf, InitialTabs.count]
  · intro s ops
    induction ops generalizing s with
    | nil => exact id
    | cons op ops ih =>
      intro h
      exact ih (applyOp s op) (applyOp_tabs_ne_nil s op h)

/-- C1 witness: closing the only tab and cycling forward leaves the list
nonempty. -/
theorem tab_list_never_empty_witness :
    (applyOps exState [TMOp.closeTab ("a"), TMOp.nextTab 7]).tabs ≠ [] :=
  tab_list_never_empty.2 exState [TMOp.closeTab ("a"), TMOp.nextTab 7]
    (by decide)

/-- Index of the distinguished element of a decomposed list, under a
predicate that rejects the prefix and accepts the element. -/
theorem findIdx?_append_cons (l₁ : List Tab) (t : Tab) (l₂ : List Tab)
    (p : Tab → Bool) (h1 : ∀ x ∈ l₁, p x = false) (ht : p t = true) :
    (l₁ ++ t :: l₂).findIdx? p = some l₁.length := by
  have h0 : l₁.findIdx? p = none := by
    rw [List.findIdx?_eq_none_iff]
    intro x hx
    simp [h1 x hx]
  rw [List.findIdx?_append, h0]
  simp [List.findIdx?_cons, ht]

/-- Element lookup at the junction of a decomposed list. -/
theorem getElem?_append_cons (l₁ : List Tab) (t : Tab) (l₂ : List Tab) :
    (l₁ ++ t :: l₂)[l₁.length]? = some t := by
  rw [List.getElem?_append_right (Nat.le_refl _)]
  simp

/-- Erasure at the junction of a decomposed list. -/
theorem eraseIdx_append_cons (l₁ : List Tab) (t : Tab) (l₂ : List Tab) :
    (l₁ ++ t :: l₂).eraseIdx l₁.length = l₁ ++ l₂ := by
  rw [List.eraseIdx_append_of_length_le (Nat.le_refl _)]
  simp

/-- Insertion at the junction of a decomposed list. -/
theorem insertIdx_append_cons (l₁ : List Tab) (x : Tab) (l₂ : List Tab) :
    List.insertIdx l₁.length x (l₁ ++ l₂) = l₁ ++ x :: l₂ := by
  induction l₁ with
  | nil => simp
  | cons a l ih => simp [List.insertIdx_succ_cons, ih]

/-- The id of a tab in a nodup-id spine occurs in neither side. -/
theorem nodup_spine_facts (l₁ : List Tab) (t : Tab) (l₂ : List Tab)
    (hnd : ((l₁ ++ t :: l₂).map Tab.id).Nodup) :
    (∀ x ∈ l₁, x.id ≠ t.id) ∧ (∀ x ∈ l₂, x.id ≠ t.id) := by
  rw [List.map_append, List.map_cons, List.nodup_append] at hnd
  obtain ⟨hn1, hn2, hdisj⟩ := hnd
  constructor
  · intro x hx he
    exact hdisj (List.mem_map_of_mem Tab.id hx) (by simp [he])
  · intro x hx he
    exact (List.nodup_cons.mp hn2).1 (he ▸ List.mem_map_of_mem Tab.id hx)

/-- Filtering out the distinguished id of a nodup-id spine removes exactly
that element. -/
theorem filter_spine (l₁ : List Tab) (t : Tab) (l₂ : List Tab)
    (h1 : ∀ x ∈ l₁, x.id ≠ t.id) (h2 : ∀ x ∈ l₂, x.id ≠ t.id) :
    (l₁ ++ t :: l₂).filter (fun x => x.id != t.id) = l₁ ++ l₂ := by
  rw [List.filter_append, filter_ne_of_all_ne l₁ t.id h1]
  simp [filter_ne_of_all_ne l₂ t.id h2]

/-- C4: closing the active tab in a list of at least two tabs (distinct ids)
yields an active tab id that exists in the resulting list, namely the tab
immediately preceding the closed one in the prior order, or the first tab of
the resulting list when the closed tab had no predecessor. -/
theorem closeTab_active_valid_new_active (s : TMState)
    (hnd : (s.tabs.map Tab.id).Nodup)
    (hlen : 2 ≤ s.tabs.length)
    (hmem : s.activeTabId ∈ s.tabs.map Tab.id) :
    (closeTab s s.activeTabId).activeTabId
        ∈ (closeTab s s.activeTabId).tabs.map Tab.id ∧
    some (closeTab s s.activeTabId).activeTabId
        = specCloseNewActive s.tabs s.activeTabId := by
  obtain ⟨t, ht, hid⟩ := List.mem_map.mp hmem
  obtain ⟨l₁, l₂, hsp⟩ := List.append_of_mem ht
  have hnd' := hnd
  rw [hsp] at hnd'
  obtain ⟨h1, h2⟩ := nodup_spine_facts l₁ t l₂ hnd'
  have hfil : s.tabs.filter (fun x => x.id != s.activeTabId) = l₁ ++ l₂ := by
    rw [hsp, ← hid]
    exact filter_spine l₁ t l₂ h1 h2
  have hfind : s.tabs.findIdx? (fun x => x.id == s.activeTabId)
      = some l₁.length := by
    rw [hsp]
    apply findIdx?_append_cons
    · intro x hx
      simp [← hid, h1 x hx]
    · simp [hid]
  have hfne : l₁ ++ l₂ ≠ [] := by
    intro he
    have hl := hlen
    rw [hsp, List.length_append, List.length_cons] at hl
    have h0 : l₁.length + l₂.length = 0 := by
      rw [← List.length_append, he]
      rfl
    omega
  have hempty : (s.tabs.filter (fun x => x.id != s.activeTabId)).isEmpty
      = false := by
    rw [hfil]
    cases hc : l₁ ++ l₂ with
    | nil => exact absurd hc hfne
    | cons a l => rfl
  cases l₁ with
  | nil =>
    cases l₂ with
    | nil => exact absurd rfl hfne
    | cons y ys =>
      simp only [List.nil_append] at hfil hfind
      have hred : closeTab s s.activeTabId
          = { s with
              tabs := y :: ys
              activeTabId := y.id
              explorer := (s.explorer.deleteState s.activeTabId).1
              selection := mapDelete s.selection s.activeTabId } := by
        simp [closeTab, hfil, hfind, Option.orElse]
      rw [hred]
      constructor
      · simp
      · unfold specCloseNewActive
        rw [hfind]
        simp [hfil]
  | cons b l₁' =>
    have hlt : l₁'.length < (b :: l₁').length := by simp
    obtain ⟨u, hgu⟩ : ∃ u, (b :: l₁')[l₁'.length]? = some u :=
      ⟨_, List.getElem?_eq_getElem hlt⟩
    have humem : u ∈ b :: l₁' := by
      have := List.getElem?_eq_some_iff.mp hgu
      obtain ⟨hh, hv⟩ := this
      rw [← hv]
      exact List.getElem_mem hh
    have hgetf : ((b :: l₁') ++ l₂)[l₁'.length]? = some u := by
      rw [List.getElem?_append_left hlt]
      exact hgu
    rw [List.cons_append] at hgetf
    have hgets : s.tabs[l₁'.length]? = some u := by
      rw [hsp, List.getElem?_append_left hlt]
      exact hgu
    have hred : closeTab s s.activeTabId
        = { s with
            tabs := (b :: l₁') ++ l₂
            activeTabId := u.id
            explorer := (s.explorer.deleteState s.activeTabId).1
            selection := mapDelete s.selection s.activeTabId } := by
      simp [closeTab, hfil, hfind, List.length_cons, Nat.succ_sub_one,
        hgetf, Option.orElse]
    rw [hred]
    constructor
    · simp only [List.map_append, List.mem_append]
      exact Or.inl (List.mem_map_of_mem Tab.id humem)
    · unfold specCloseNewActive
      rw [hfind]
      simp only [List.length_cons, Nat.succ_sub_one, if_neg (Nat.succ_ne_zero _), hgets]
      rfl

/-- C4 witness: closing the active (second) tab of a two-tab state activates
its predecessor. -/
theorem closeTab_active_valid_new_active_witness :
    (closeTab exState3 exState3.activeTabId).activeTabId
        ∈ (closeTab exState3 exState3.activeTabId).tabs.map Tab.id ∧
    some (closeTab exState3 exState3.activeTabId).activeTabId
        = specCloseNewActive exState3.tabs exState3.activeTabId :=
  closeTab_active_valid_new_active exState3 (by decide) (by decide) (by decide)

/-- C8 counterexample: with tabs ordered a, c, b, `reorderTabs(a, b)` followed
by `reorderTabs(b, a)` yields c, a, b — not the original order — although both
ids occur and are distinct. -/
theorem reorder_double_not_inverse :
    "a" ∈ exTabs3.map Tab.id ∧ "b" ∈ exTabs3.map Tab.id ∧
    ("a" : String) ≠ "b" ∧
    reorderList (reorderList exTabs3 ("a") ("b")) ("b") ("a") ≠ exTabs3 := by
  decide

/-- Moving a tab one slot forward swaps it with its successor. -/
theorem reorderList_swap_adjacent (l₁ : List Tab) (u v : Tab) (l₂ : List Tab)
    (h1 : ∀ x ∈ l₁, x.id ≠ u.id) (h2 : ∀ x ∈ l₁, x.id ≠ v.id)
    (huv : u.id ≠ v.id) :
    reorderList (l₁ ++ u :: v :: l₂) u.id v.id = l₁ ++ v :: u :: l₂ := by
  have hfu : (l₁ ++ u :: v :: l₂).findIdx? (fun t => t.id == u.id)
      = some l₁.length :=
    findIdx?_append_cons l₁ u (v :: l₂) _ (fun x hx => by simp [h1 x hx])
      (by simp)
  have hfv : (l₁ ++ u :: v :: l₂).findIdx? (fun t => t.id == v.id)
      = some (l₁.length + 1) := by
    have hpre : ∀ x ∈ l₁ ++ [u], ((fun t => t.id == v.id) x) = false := by
      intro x hx
      rcases List.mem_append.mp hx with hx | hx
      · simp [h2 x hx]
      · simp at hx
        subst hx
        simp [huv]
    have := findIdx?_append_cons (l₁ ++ [u]) v l₂ (fun t => t.id == v.id)
      hpre (by simp)
    simpa [List.append_assoc] using this
  have hget : (l₁ ++ u :: v :: l₂)[l₁.length]? = some u :=
    getElem?_append_cons l₁ u (v :: l₂)
  have herase : (l₁ ++ u :: v :: l₂).eraseIdx l₁.length = l₁ ++ v :: l₂ :=
    eraseIdx_append_cons l₁ u (v :: l₂)
  have hins : List.insertIdx (l₁.length + 1) u (l₁ ++ v :: l₂)
      = l₁ ++ v :: u :: l₂ := by
    have := insertIdx_append_cons (l₁ ++ [v]) u l₂
    simpa [List.append_assoc] using this
  have hne : l₁.length ≠ l₁.length + 1 := by omega
  unfold reorderList
  rw [hfu, hfv]
  simp [hne, hget, herase, hins]

/-- Moving a tab one slot backward also swaps it with its predecessor. -/
theorem reorderList_swap_adjacent_back (l₁ : List Tab) (u v : Tab)
    (l₂ : List Tab)
    (h1 : ∀ x ∈ l₁, x.id ≠ u.id) (h2 : ∀ x ∈ l₁, x.id ≠ v.id)
    (huv : u.id ≠ v.id) :
    reorderList (l₁ ++ u :: v :: l₂) v.id u.id = l₁ ++ v :: u :: l₂ := by
  have hfu : (l₁ ++ u :: v :: l₂).findIdx? (fun t => t.id == u.id)
      = some l₁.length :=
    findIdx?_append_cons l₁ u (v :: l₂) _ (fun x hx => by simp [h1 x hx])
      (by simp)
  have hfv : (l₁ ++ u :: v :: l₂).findIdx? (fun t => t.id == v.id)
      = some (l₁.length + 1) := by
    have hpre : ∀ x ∈ l₁ ++ [u], ((fun t => t.id == v.id) x) = false := by
      intro x hx
      rcases List.mem_append.mp hx with hx | hx
      · simp [h2 x hx]
      · simp at hx
        subst hx
        simp [huv]
    have := findIdx?_append_cons (l₁ ++ [u]) v l₂ (fun t => t.id == v.id)
      hpre (by simp)
    simpa [List.append_assoc] using this
  have hget : (l₁ ++ u :: v :: l₂)[l₁.length + 1]? = some v := by
    have := getElem?_append_cons (l₁ ++ [u]) v l₂
    simpa [List.append_assoc] using this
  have herase : (l₁ ++ u :: v :: l₂).eraseIdx (l₁.length + 1)
      = l₁ ++ u :: l₂ := by
    have := eraseIdx_append_cons (l₁ ++ [u]) v l₂
    simpa [List.append_assoc] using this
  have hins : List.insertIdx l₁.length v (l₁ ++ u :: l₂)
      = l₁ ++ v :: u :: l₂ :=
    insertIdx_append_cons l₁ v (u :: l₂)
  have hne : l₁.length + 1 ≠ l₁.length := by omega
  unfold reorderList
  rw [hfv, hfu]
  simp [hne, hget, herase, hins]

/-- C8 amended: for adjacent tabs with distinct (nodup) ids,
`reorderTabs(a, b)` followed by `reorderTabs(b, a)` restores the original
order (in either role order); and `reorderTabs` leaves the order unchanged
when the two ids are equal or when either id is missing from the list.
For non-adjacent positions, the double reorder need not restore the order. -/
theorem reorder_inverse_amended (l₁ : List Tab) (u v : Tab) (l₂ : List Tab)
    (hnd : ((l₁ ++ u :: v :: l₂).map Tab.id).Nodup) :
    reorderList (reorderList (l₁ ++ u :: v :: l₂) u.id v.id) v.id u.id
        = l₁ ++ u :: v :: l₂ ∧
    reorderList (reorderList (l₁ ++ u :: v :: l₂) v.id u.id) u.id v.id
        = l₁ ++ u :: v :: l₂ ∧
    (∀ (tabs : List Tab) (a : String), reorderList tabs a a = tabs) ∧
    (∀ (tabs : List Tab) (a b : String), a ∉ tabs.map Tab.id →
      reorderList tabs a b = tabs ∧ reorderList tabs b a = tabs) := by
  obtain ⟨h1u, h2u⟩ := nodup_spine_facts l₁ u (v :: l₂) hnd
  have hvu : v.id ≠ u.id := h2u v (by simp)
  have huv : u.id ≠ v.id := Ne.symm hvu
  have hndv : (((l₁ ++ [u]) ++ v :: l₂).map Tab.id).Nodup := by
    simpa [List.append_assoc] using hnd
  obtain ⟨h1v', _⟩ := nodup_spine_facts (l₁ ++ [u]) v l₂ hndv
  have h1v : ∀ x ∈ l₁, x.id ≠ v.id := fun x hx =>
    h1v' x (List.mem_append.mpr (Or.inl hx))
  refine ⟨?_, ?_, ?_, ?_⟩
  · rw [reorderList_swap_adjacent l₁ u v l₂ h1u h1v huv]
    exact reorderList_swap_adjacent l₁ v u l₂ h1v h1u hvu
  · rw [reorderList_swap_adjacent_back l₁ u v l₂ h1u h1v huv]
    exact reorderList_swap_adjacent_back l₁ v u l₂ h1v h1u hvu
  · intro tabs a
    rcases h : tabs.findIdx? (fun t => t.id == a) with _ | i <;>
      simp [reorderList, h]
  · intro tabs a b hmem
    have hf : tabs.findIdx? (fun t => t.id == a) = none := by
      rw [List.findIdx?_eq_none_iff]
      intro x hx
      simp only [beq_eq_false_iff_ne, ne_eq]
      intro he
      exact hmem (he ▸ List.mem_map_of_mem Tab.id hx)
    constructor
    · simp [reorderList, hf]
    · rcases hB : tabs.findIdx? (fun t => t.id == b) with _ | j <;>
        simp [reorderList, hf, hB]

/-- C8 amended witness: double reorder of two adjacent tabs restores the
order. -/
theorem reorder_inverse_amended_witness :
    reorderList (reorderList ([] ++ exTab ("x") :: exTab ("y") :: [])
        (exTab ("x")).id (exTab ("y")).id)
      (exTab ("y")).id (exTab ("x")).id
      = [] ++ exTab ("x") :: exTab ("y") :: [] :=
  (reorder_inverse_amended [] (exTab ("x")) (exTab ("y")) [] (by decide)).1
